import Mathlib

/-!
Verification of the `compound_duration` crate (`src/lib.rs`).

The crate exposes three pure functions that render a non-negative integer
duration as a compact compound string such as `69d10h40m`:

* `format_dhms`  : seconds     -> days/hours/minutes/seconds
* `format_wdhms` : seconds     -> weeks/days/hours/minutes/seconds
* `format_ns`    : nanoseconds -> days/hours/minutes/seconds/ms/µs/ns

Each Rust function first narrows its generic unsigned argument to `usize`
(64-bit) and then performs repeated divide-and-remainder over a descending
unit ladder, appending `"<count><label>"` for each nonzero count.

The Lean embedding models the narrowed `usize` value as a `Nat` (all the
arithmetic in the source is division and modulo, which cannot overflow),
and models the wider-than-`usize` caller path, `value & usize::MAX`, as
`Nat.land` with `2 ^ 64 - 1`.
-/

/-- `pub const NS: usize = 1;` -/
def NS : Nat := 1

/-- `pub const US: usize = 1_000;` -/
def US : Nat := 1000

/-- `pub const MS: usize = 1_000_000;` -/
def MS : Nat := 1000000

/-- `pub const NANOS: usize = 1_000_000_000;` -/
def NANOS : Nat := 1000000000

/-- `pub const SECOND: usize = 1;` -/
def SECOND : Nat := 1

/-- `pub const MINUTE: usize = 60;` -/
def MINUTE : Nat := 60

/-- `pub const HOUR: usize = 3_600;` -/
def HOUR : Nat := 3600

/-- `pub const DAY: usize = 86_400;` -/
def DAY : Nat := 86400

/-- `pub const WEEK: usize = 604_800;` -/
def WEEK : Nat := 604800

/-- Embedding of `format_dhms` (src/lib.rs, lines 32-77), after the generic
argument has been narrowed to `usize`.  The mutable `String` built by
successive `push_str` calls becomes a chain of shadowed `let` bindings. -/
def format_dhms (seconds : Nat) : String :=
  if seconds == 0 then "0s"
  else
    let sec := seconds % DAY
    let ds := seconds / DAY
    let compound_duration := if ds != 0 then toString ds ++ "d" else ""
    let hs := sec / HOUR
    let sec := sec % HOUR
    let compound_duration :=
      if hs != 0 then compound_duration ++ (toString hs ++ "h") else compound_duration
    let ms := sec / MINUTE
    let sec := sec % MINUTE
    let compound_duration :=
      if ms != 0 then compound_duration ++ (toString ms ++ "m") else compound_duration
    if sec != 0 then compound_duration ++ (toString sec ++ "s") else compound_duration

/-- Embedding of `format_wdhms` (src/lib.rs, lines 88-140), after narrowing. -/
def format_wdhms (seconds : Nat) : String :=
  if seconds == 0 then "0s"
  else
    let sec := seconds % WEEK
    let ws := seconds / WEEK
    let compound_duration := if ws != 0 then toString ws ++ "w" else ""
    let ds := sec / DAY
    let sec := sec % DAY
    let compound_duration :=
      if ds != 0 then compound_duration ++ (toString ds ++ "d") else compound_duration
    let hs := sec / HOUR
    let sec := sec % HOUR
    let compound_duration :=
      if hs != 0 then compound_duration ++ (toString hs ++ "h") else compound_duration
    let ms := sec / MINUTE
    let sec := sec % MINUTE
    let compound_duration :=
      if ms != 0 then compound_duration ++ (toString ms ++ "m") else compound_duration
    if sec != 0 then compound_duration ++ (toString sec ++ "s") else compound_duration

/-- Embedding of `format_ns` (src/lib.rs, lines 153-217), after narrowing.
The microsecond label is the Unicode micro sign (U+00B5) followed by `s`,
exactly as the source writes `"\u{b5}s"`. -/
def format_ns (nanos : Nat) : String :=
  if nanos == 0 then "0ns"
  else
    let ns := nanos % (DAY * NANOS)
    let d_ns := nanos / (DAY * NANOS)
    let compound_duration := if d_ns != 0 then toString d_ns ++ "d" else ""
    let h_ns := ns / (HOUR * NANOS)
    let ns := ns % (HOUR * NANOS)
    let compound_duration :=
      if h_ns != 0 then compound_duration ++ (toString h_ns ++ "h") else compound_duration
    let minutes_ns := ns / (MINUTE * NANOS)
    let ns := ns % (MINUTE * NANOS)
    let compound_duration :=
      if minutes_ns != 0 then compound_duration ++ (toString minutes_ns ++ "m")
      else compound_duration
    let sec_ns := ns / (SECOND * NANOS)
    let ns := ns % (SECOND * NANOS)
    let compound_duration :=
      if sec_ns != 0 then compound_duration ++ (toString sec_ns ++ "s") else compound_duration
    let ms_ns := ns / MS
    let ns := ns % MS
    let compound_duration :=
      if ms_ns != 0 then compound_duration ++ (toString ms_ns ++ "ms") else compound_duration
    let micro_ns := ns / US
    let ns := ns % US
    let compound_duration :=
      if micro_ns != 0 then compound_duration ++ (toString micro_ns ++ "µs")
      else compound_duration
    if ns != 0 then compound_duration ++ (toString ns ++ "ns") else compound_duration

/-- The narrowing each Rust function applies when the caller's integer type is
wider than `usize`: `seconds & usize::MAX` keeps only the low 64 bits
(src/lib.rs, the `else` branch of the `size_of` comparison). -/
def narrow_wide (x : Nat) : Nat := Nat.land x (2 ^ 64 - 1)

/-- `format_dhms` as called with an unsigned integer wider than `usize`:
the source narrows with `& usize::MAX` and then runs the `usize` body. -/
def format_dhms_wide (x : Nat) : String := format_dhms (narrow_wide x)

/-- `format_wdhms` as called with an unsigned integer wider than `usize`. -/
def format_wdhms_wide (x : Nat) : String := format_wdhms (narrow_wide x)

/-- `format_ns` as called with an unsigned integer wider than `usize`. -/
def format_ns_wide (x : Nat) : String := format_ns (narrow_wide x)

/-- Modelled from the spec (section 4.1, step 3): the general per-unit loop of
the shared decompose-and-render algorithm.  For each `(label, size)` of the
ladder in order it takes `count := remainder / size`, continues with
`remainder % size`, and appends `"<count><label>"` when `count` is nonzero. -/
def runLadder : Nat → List (String × Nat) → String
  | _, [] => ""
  | rem, (label, size) :: rest =>
      (if rem / size != 0 then toString (rem / size) ++ label else "")
        ++ runLadder (rem % size) rest

/-- Modelled from the spec (section 4.1): the shared decompose-and-render
algorithm, parameterized by the zero-string and the unit ladder.  Input `0`
is the explicit special case returning the fixed zero-string. -/
def genericFormat (zeroStr : String) (ladder : List (String × Nat)) (value : Nat) : String :=
  if value == 0 then zeroStr else runLadder value ladder

/-- The second-based day/hour/minute/second ladder. -/
def dhmsLadder : List (String × Nat) :=
  [("d", DAY), ("h", HOUR), ("m", MINUTE), ("s", SECOND)]

/-- The second-based ladder with weeks on top. -/
def wdhmsLadder : List (String × Nat) :=
  [("w", WEEK), ("d", DAY), ("h", HOUR), ("m", MINUTE), ("s", SECOND)]

/-- The nanosecond ladder. -/
def nsLadder : List (String × Nat) :=
  [("d", DAY * NANOS), ("h", HOUR * NANOS), ("m", MINUTE * NANOS),
   ("s", SECOND * NANOS), ("ms", MS), ("µs", US), ("ns", NS)]

/-- All `(count, label, size)` triples of the per-unit loop, including the
zero-count ones that are not appended to the output. -/
def ladderFull : Nat → List (String × Nat) → List (Nat × String × Nat)
  | _, [] => []
  | rem, (label, size) :: rest => (rem / size, label, size) :: ladderFull (rem % size) rest

/-- The `(count, label, size)` triples the loop actually emits: those with a
nonzero count, in ladder order. -/
def ladderTerms (rem : Nat) (ladder : List (String × Nat)) : List (Nat × String × Nat) :=
  (ladderFull rem ladder).filter (fun t => t.1 != 0)

/-- The remainder left after the whole ladder has been processed. -/
def finalRem : Nat → List (String × Nat) → Nat
  | rem, [] => rem
  | rem, (_, size) :: rest => finalRem (rem % size) rest

/-- Render a term list the way the loop renders its emitted terms. -/
def renderTerms : List (Nat × String × Nat) → String
  | [] => ""
  | t :: ts => (toString t.1 ++ t.2.1) ++ renderTerms ts

/-- Sum of `count * size` over a term list. -/
def sumTerms : List (Nat × String × Nat) → Nat
  | [] => 0
  | t :: ts => t.1 * t.2.2 + sumTerms ts

/-- The terms emitted by `format_dhms` on nonzero input. -/
def dhms_terms (seconds : Nat) : List (Nat × String × Nat) :=
  ladderTerms seconds dhmsLadder

/-- The terms emitted by `format_wdhms` on nonzero input. -/
def wdhms_terms (seconds : Nat) : List (Nat × String × Nat) :=
  ladderTerms seconds wdhmsLadder

/-- The terms emitted by `format_ns` on nonzero input. -/
def ns_terms (nanos : Nat) : List (Nat × String × Nat) :=
  ladderTerms nanos nsLadder

/-! ### Helper lemmas -/

theorem append_ite (b : Bool) (acc x : String) :
    (if b then acc ++ x else acc) = acc ++ (if b then x else "") := by
  cases b <;> simp [String.append_empty]

theorem runLadder_eq_renderTerms (rem : Nat) (L : List (String × Nat)) :
    runLadder rem L = renderTerms (ladderTerms rem L) := by
  induction L generalizing rem with
  | nil => simp [runLadder, ladderTerms, ladderFull, renderTerms]
  | cons p rest ih =>
    obtain ⟨label, size⟩ := p
    simp only [runLadder, ladderTerms, ladderFull, List.filter_cons]
    by_cases h : rem / size = 0
    · simp [h, ladderTerms] at ih ⊢
      rw [ih]
    · simp [h, ladderTerms] at ih ⊢
      rw [renderTerms, ih]

theorem sumTerms_filter (l : List (Nat × String × Nat)) :
    sumTerms (l.filter (fun t => t.1 != 0)) = sumTerms l := by
  induction l with
  | nil => rfl
  | cons t ts ih =>
    by_cases h : t.1 = 0
    · simp [List.filter_cons, h, sumTerms, ih]
    · simp [List.filter_cons, h, sumTerms, ih]

theorem sumTerms_ladderFull (rem : Nat) (L : List (String × Nat)) :
    sumTerms (ladderFull rem L) + finalRem rem L = rem := by
  induction L generalizing rem with
  | nil => simp [ladderFull, sumTerms, finalRem]
  | cons p rest ih =>
    obtain ⟨label, size⟩ := p
    simp only [ladderFull, sumTerms, finalRem]
    have h := ih (rem % size)
    have hdm := Nat.div_add_mod' rem size
    omega

theorem sumTerms_ladderTerms (rem : Nat) (L : List (String × Nat)) :
    sumTerms (ladderTerms rem L) + finalRem rem L = rem := by
  rw [ladderTerms, sumTerms_filter, sumTerms_ladderFull]

theorem append_ite_p (c : Prop) [inst : Decidable c] (acc x : String) :
    (if c then acc ++ x else acc) = acc ++ (if c then x else "") := by
  split <;> simp [String.append_empty]

theorem format_dhms_eq_generic (n : Nat) :
    format_dhms n = genericFormat "0s" dhmsLadder n := by
  unfold format_dhms genericFormat
  split
  · rfl
  · simp only [append_ite_p]
    simp only [runLadder, dhmsLadder, SECOND, MINUTE, HOUR, DAY,
      String.append_assoc, String.append_empty, Nat.div_one, Nat.mod_one]

theorem format_wdhms_eq_generic (n : Nat) :
    format_wdhms n = genericFormat "0s" wdhmsLadder n := by
  unfold format_wdhms genericFormat
  split
  · rfl
  · simp only [append_ite_p]
    simp only [runLadder, wdhmsLadder, SECOND, MINUTE, HOUR, DAY, WEEK,
      String.append_assoc, String.append_empty, Nat.div_one, Nat.mod_one]

theorem format_ns_eq_generic (n : Nat) :
    format_ns n = genericFormat "0ns" nsLadder n := by
  unfold format_ns genericFormat
  split
  · rfl
  · simp only [append_ite_p]
    simp only [runLadder, nsLadder, SECOND, MINUTE, HOUR, DAY, NANOS, MS, US, NS,
      String.append_assoc, String.append_empty, Nat.div_one, Nat.mod_one]

theorem format_dhms_eq_render (n : Nat) :
    format_dhms n = if n == 0 then "0s" else renderTerms (dhms_terms n) := by
  rw [format_dhms_eq_generic, genericFormat, dhms_terms, runLadder_eq_renderTerms]

theorem format_wdhms_eq_render (n : Nat) :
    format_wdhms n = if n == 0 then "0s" else renderTerms (wdhms_terms n) := by
  rw [format_wdhms_eq_generic, genericFormat, wdhms_terms, runLadder_eq_renderTerms]

theorem format_ns_eq_render (n : Nat) :
    format_ns n = if n == 0 then "0ns" else renderTerms (ns_terms n) := by
  rw [format_ns_eq_generic, genericFormat, ns_terms, runLadder_eq_renderTerms]

theorem sum_dhms_terms (n : Nat) : sumTerms (dhms_terms n) = n := by
  have h := sumTerms_ladderTerms n dhmsLadder
  simp [finalRem, dhmsLadder, SECOND, Nat.mod_one] at h
  simpa [dhms_terms] using h

theorem sum_wdhms_terms (n : Nat) : sumTerms (wdhms_terms n) = n := by
  have h := sumTerms_ladderTerms n wdhmsLadder
  simp [finalRem, wdhmsLadder, SECOND, Nat.mod_one] at h
  simpa [wdhms_terms] using h

theorem sum_ns_terms (n : Nat) : sumTerms (ns_terms n) = n := by
  have h := sumTerms_ladderTerms n nsLadder
  simp [finalRem, nsLadder, NS, Nat.mod_one] at h
  simpa [ns_terms] using h


theorem ladderFull_map_label (rem : Nat) (L : List (String × Nat)) :
    (ladderFull rem L).map (fun t => t.2.1) = L.map Prod.fst := by
  induction L generalizing rem with
  | nil => rfl
  | cons p rest ih => obtain ⟨label, size⟩ := p; simp [ladderFull, ih]

theorem ladderFull_map_size (rem : Nat) (L : List (String × Nat)) :
    (ladderFull rem L).map (fun t => t.2.2) = L.map Prod.snd := by
  induction L generalizing rem with
  | nil => rfl
  | cons p rest ih => obtain ⟨label, size⟩ := p; simp [ladderFull, ih]

theorem ladderTerms_sublist (rem : Nat) (L : List (String × Nat)) :
    (ladderTerms rem L).Sublist (ladderFull rem L) :=
  List.filter_sublist _

theorem mem_ladderTerms_count_ne {t : Nat × String × Nat} {rem : Nat} {L : List (String × Nat)}
    (h : t ∈ ladderTerms rem L) : t.1 ≠ 0 := by
  have h2 := List.of_mem_filter h
  simpa using h2

theorem ladderTerms_pairwise (rem : Nat) (L : List (String × Nat))
    (h : (L.map Prod.snd).Pairwise (fun a b => b < a)) :
    (ladderTerms rem L).Pairwise (fun t u => u.2.2 < t.2.2) := by
  have hfull : (ladderFull rem L).Pairwise (fun t u => u.2.2 < t.2.2) := by
    rw [← ladderFull_map_size rem L] at h
    exact (List.pairwise_map).mp h
  exact hfull.sublist (ladderTerms_sublist rem L)

theorem ladderTerms_labels_nodup (rem : Nat) (L : List (String × Nat))
    (h : (L.map Prod.fst).Nodup) :
    ((ladderTerms rem L).map (fun t => t.2.1)).Nodup := by
  have hsub : ((ladderTerms rem L).map (fun t => t.2.1)).Sublist
      ((ladderFull rem L).map (fun t => t.2.1)) :=
    (ladderTerms_sublist rem L).map _
  rw [ladderFull_map_label] at hsub
  exact h.sublist hsub

theorem mem_label_of_mem_ladderTerms {t : Nat × String × Nat} {rem : Nat}
    {L : List (String × Nat)} (h : t ∈ ladderTerms rem L) : t.2.1 ∈ L.map Prod.fst := by
  have h1 : t ∈ ladderFull rem L := List.mem_of_mem_filter h
  have h2 := List.mem_map_of_mem (fun t => t.2.1) h1
  rwa [ladderFull_map_label] at h2

theorem renderTerms_cons_length (t : Nat × String × Nat) (ts : List (Nat × String × Nat)) :
    (renderTerms (t :: ts)).length =
      (toString t.1).length + t.2.1.length + (renderTerms ts).length := by
  simp [renderTerms, String.length_append]

/-- C1: for each of `format_dhms`, `format_wdhms` and `format_ns`, the output
string is the rendering of the emitted `(count, label, size)` terms (with the
fixed zero-string at input `0`), and summing `count * size` over those terms
reconstructs the input exactly. -/
theorem format_exact_reconstruction (n : Nat) :
    sumTerms (dhms_terms n) = n ∧ sumTerms (wdhms_terms n) = n ∧ sumTerms (ns_terms n) = n ∧
    format_dhms n = (if n == 0 then "0s" else renderTerms (dhms_terms n)) ∧
    format_wdhms n = (if n == 0 then "0s" else renderTerms (wdhms_terms n)) ∧
    format_ns n = (if n == 0 then "0ns" else renderTerms (ns_terms n)) :=
  ⟨sum_dhms_terms n, sum_wdhms_terms n, sum_ns_terms n,
   format_dhms_eq_render n, format_wdhms_eq_render n, format_ns_eq_render n⟩

/-- C2: on input `0` the functions return exactly `"0s"`, `"0s"` and `"0ns"`,
via the explicit zero check; the general per-unit loop alone would instead
produce the empty string on input `0`. -/
theorem format_zero_case :
    format_dhms 0 = "0s" ∧ format_wdhms 0 = "0s" ∧ format_ns 0 = "0ns" ∧
    runLadder 0 dhmsLadder = "" ∧ runLadder 0 wdhmsLadder = "" ∧ runLadder 0 nsLadder = "" :=
  ⟨rfl, rfl, rfl, rfl, rfl, rfl⟩

/-- C4: the concrete scenarios of the spec hold for all three functions. -/
theorem format_concrete_scenarios :
    format_dhms 0 = "0s" ∧ format_dhms 30 = "30s" ∧ format_dhms 61 = "1m1s" ∧
    format_dhms 3600 = "1h" ∧ format_dhms 86400 = "1d" ∧ format_dhms 7259 = "2h59s" ∧
    format_dhms 604800 = "7d" ∧ format_dhms 6000000 = "69d10h40m" ∧
    format_wdhms 604800 = "1w" ∧ format_wdhms 6000000 = "9w6d10h40m" ∧
    format_wdhms 4294967295 = "7101w3d6h28m15s" ∧
    format_ns 0 = "0ns" ∧ format_ns 1 = "1ns" ∧ format_ns 1000 = "1µs" ∧
    format_ns 1000000 = "1ms" ∧ format_ns 1000001 = "1ms1ns" ∧
    format_ns 3000129723 = "3s129µs723ns" ∧
    format_ns 100000000010100001 = "1157d9h46m40s10ms100µs1ns" := by
  refine ⟨?_, ?_, ?_, ?_, ?_, ?_, ?_, ?_, ?_, ?_, ?_, ?_, ?_, ?_, ?_, ?_, ?_, ?_⟩ <;> decide

/-- C6: the three functions are total: for every input they return a string,
and every division or modulo they perform divides by a nonzero ladder size. -/
theorem format_total :
    (∀ n : Nat, ∃ s : String, format_dhms n = s) ∧
    (∀ n : Nat, ∃ s : String, format_wdhms n = s) ∧
    (∀ n : Nat, ∃ s : String, format_ns n = s) ∧
    dhmsLadder.all (fun p => p.2 != 0) = true ∧
    wdhmsLadder.all (fun p => p.2 != 0) = true ∧
    nsLadder.all (fun p => p.2 != 0) = true :=
  ⟨fun _ => ⟨_, rfl⟩, fun _ => ⟨_, rfl⟩, fun _ => ⟨_, rfl⟩, by decide, by decide, by decide⟩

/-- C7: a caller's wider-than-64-bit input is silently narrowed by keeping the
low 64 bits, so each function's result equals the function applied to the
input modulo `2 ^ 64`. -/
theorem format_narrowing_truncates (x : Nat) :
    narrow_wide x = x % 2 ^ 64 ∧
    format_dhms_wide x = format_dhms (x % 2 ^ 64) ∧
    format_wdhms_wide x = format_wdhms (x % 2 ^ 64) ∧
    format_ns_wide x = format_ns (x % 2 ^ 64) := by
  have h : narrow_wide x = x % 2 ^ 64 := Nat.and_pow_two_sub_one_eq_mod x 64
  exact ⟨h, by rw [format_dhms_wide, h], by rw [format_wdhms_wide, h],
    by rw [format_ns_wide, h]⟩

/-- C8: each public function is observably equal to the shared
decompose-and-render algorithm instantiated with its unit ladder and
zero-string. -/
theorem format_refines_generic (n : Nat) :
    format_dhms n = genericFormat "0s" dhmsLadder n ∧
    format_wdhms n = genericFormat "0s" wdhmsLadder n ∧
    format_ns n = genericFormat "0ns" nsLadder n :=
  ⟨format_dhms_eq_generic n, format_wdhms_eq_generic n, format_ns_eq_generic n⟩

/-- C3: for every input, the emitted unit terms of each function carry
strictly descending unit sizes, pairwise distinct labels, and no zero
coefficient. -/
theorem format_terms_descending_distinct_nonzero (n : Nat) :
    ((dhms_terms n).Pairwise (fun t u => u.2.2 < t.2.2) ∧
      ((dhms_terms n).map (fun t => t.2.1)).Nodup ∧ ∀ t ∈ dhms_terms n, t.1 ≠ 0) ∧
    ((wdhms_terms n).Pairwise (fun t u => u.2.2 < t.2.2) ∧
      ((wdhms_terms n).map (fun t => t.2.1)).Nodup ∧ ∀ t ∈ wdhms_terms n, t.1 ≠ 0) ∧
    ((ns_terms n).Pairwise (fun t u => u.2.2 < t.2.2) ∧
      ((ns_terms n).map (fun t => t.2.1)).Nodup ∧ ∀ t ∈ ns_terms n, t.1 ≠ 0) := by
  refine ⟨⟨?_, ?_, ?_⟩, ⟨?_, ?_, ?_⟩, ⟨?_, ?_, ?_⟩⟩
  · exact ladderTerms_pairwise n dhmsLadder (by decide)
  · exact ladderTerms_labels_nodup n dhmsLadder (by decide)
  · exact fun t ht => mem_ladderTerms_count_ne ht
  · exact ladderTerms_pairwise n wdhmsLadder (by decide)
  · exact ladderTerms_labels_nodup n wdhmsLadder (by decide)
  · exact fun t ht => mem_ladderTerms_count_ne ht
  · exact ladderTerms_pairwise n nsLadder (by decide)
  · exact ladderTerms_labels_nodup n nsLadder (by decide)
  · exact fun t ht => mem_ladderTerms_count_ne ht

/-- Witness for C3 at input `61`: the emitted minute term has a nonzero
coefficient. -/
theorem format_terms_descending_distinct_nonzero_witness : (1, "m", (60 : Nat)).1 ≠ 0 :=
  (format_terms_descending_distinct_nonzero 61).1.2.2 (1, "m", 60) (by decide)

/-- C9: below one week the week coefficient is zero, so `format_wdhms`
agrees with `format_dhms`. -/
theorem format_wdhms_eq_dhms_below_week (n : Nat) (h : n < 604800) :
    format_wdhms n = format_dhms n := by
  have h1 : n / WEEK = 0 := Nat.div_eq_of_lt h
  have h2 : n % WEEK = n := Nat.mod_eq_of_lt h
  unfold format_wdhms format_dhms
  simp only [h1, h2]
  simp [String.empty_append]

/-- Witness for C9 at input `61`. -/
theorem format_wdhms_eq_dhms_below_week_witness : format_wdhms 61 = format_dhms 61 :=
  format_wdhms_eq_dhms_below_week 61 (by decide)

theorem renderTerms_ladderTerms_ne_empty {n : Nat} {L : List (String × Nat)}
    (hn : n ≠ 0) (hsum : sumTerms (ladderTerms n L) = n)
    (hlab : ∀ l ∈ L.map Prod.fst, 0 < l.length) :
    renderTerms (ladderTerms n L) ≠ "" := by
  cases hterm : ladderTerms n L with
  | nil =>
    rw [hterm] at hsum
    simp [sumTerms] at hsum
    omega
  | cons t ts =>
    have hmem : t ∈ ladderTerms n L := by rw [hterm]; exact List.mem_cons_self t ts
    have hlen : 0 < t.2.1.length := hlab _ (mem_label_of_mem_ladderTerms hmem)
    intro heq
    have hL := congrArg String.length heq
    rw [renderTerms_cons_length] at hL
    simp at hL
    omega

/-- C10: every input yields a non-empty output string: `0` yields the fixed
zero-string, and a nonzero input emits at least one term because the
smallest ladder unit has size `1`. -/
theorem format_nonempty (n : Nat) :
    format_dhms n ≠ "" ∧ format_wdhms n ≠ "" ∧ format_ns n ≠ "" := by
  by_cases h : n = 0
  · subst h
    refine ⟨?_, ?_, ?_⟩ <;> decide
  · refine ⟨?_, ?_, ?_⟩
    · rw [format_dhms_eq_render, if_neg (by simpa using h)]
      exact renderTerms_ladderTerms_ne_empty h (sum_dhms_terms n) (by decide)
    · rw [format_wdhms_eq_render, if_neg (by simpa using h)]
      exact renderTerms_ladderTerms_ne_empty h (sum_wdhms_terms n) (by decide)
    · rw [format_ns_eq_render, if_neg (by simpa using h)]
      exact renderTerms_ladderTerms_ne_empty h (sum_ns_terms n) (by decide)

/-- Witness for C10 at input `5`. -/
theorem format_nonempty_witness : format_dhms 5 ≠ "" := (format_nonempty 5).1

/-- C5: every emitted non-top coefficient stays within its ladder bucket
(hours at most 23, minutes and seconds at most 59, days at most 6 under the
week ladder, sub-second nanosecond units below 1000), while the top unit of
each ladder grows without bound. -/
theorem format_bucket_bounds :
    (∀ n : Nat, ∀ t ∈ dhms_terms n,
        (t.2.1 = "h" → t.1 ≤ 23) ∧ (t.2.1 = "m" → t.1 ≤ 59) ∧ (t.2.1 = "s" → t.1 ≤ 59)) ∧
    (∀ n : Nat, ∀ t ∈ wdhms_terms n,
        (t.2.1 = "d" → t.1 ≤ 6) ∧ (t.2.1 = "h" → t.1 ≤ 23) ∧ (t.2.1 = "m" → t.1 ≤ 59) ∧
          (t.2.1 = "s" → t.1 ≤ 59)) ∧
    (∀ n : Nat, ∀ t ∈ ns_terms n,
        (t.2.1 = "h" → t.1 ≤ 23) ∧ (t.2.1 = "m" → t.1 ≤ 59) ∧ (t.2.1 = "s" → t.1 ≤ 59) ∧
          (t.2.1 = "ms" → t.1 < 1000) ∧ (t.2.1 = "µs" → t.1 < 1000) ∧
          (t.2.1 = "ns" → t.1 < 1000)) ∧
    (∀ B : Nat, ∃ n : Nat, ∃ t ∈ dhms_terms n, t.2.1 = "d" ∧ B < t.1) ∧
    (∀ B : Nat, ∃ n : Nat, ∃ t ∈ wdhms_terms n, t.2.1 = "w" ∧ B < t.1) ∧
    (∀ B : Nat, ∃ n : Nat, ∃ t ∈ ns_terms n, t.2.1 = "d" ∧ B < t.1) := by
  refine ⟨?_, ?_, ?_, ?_, ?_, ?_⟩
  · intro n t ht
    simp only [dhms_terms, ladderTerms] at ht
    have hfull : t ∈ ladderFull n dhmsLadder := List.mem_of_mem_filter ht
    simp only [dhmsLadder, DAY, HOUR, MINUTE, SECOND, ladderFull, List.mem_cons,
      List.not_mem_nil, or_false] at hfull
    rcases hfull with rfl | rfl | rfl | rfl <;>
      refine ⟨fun hl => ?_, fun hl => ?_, fun hl => ?_⟩ <;>
        first | omega | simp at hl
  · intro n t ht
    simp only [wdhms_terms, ladderTerms] at ht
    have hfull : t ∈ ladderFull n wdhmsLadder := List.mem_of_mem_filter ht
    simp only [wdhmsLadder, DAY, HOUR, MINUTE, SECOND, WEEK, ladderFull, List.mem_cons,
      List.not_mem_nil, or_false] at hfull
    rcases hfull with rfl | rfl | rfl | rfl | rfl <;>
      refine ⟨fun hl => ?_, fun hl => ?_, fun hl => ?_, fun hl => ?_⟩ <;>
        first | omega | simp at hl
  · intro n t ht
    simp only [ns_terms, ladderTerms] at ht
    have hfull : t ∈ ladderFull n nsLadder := List.mem_of_mem_filter ht
    simp only [nsLadder, DAY, HOUR, MINUTE, SECOND, NANOS, MS, US, NS, ladderFull,
      List.mem_cons, List.not_mem_nil, or_false] at hfull
    rcases hfull with rfl | rfl | rfl | rfl | rfl | rfl | rfl <;>
      refine ⟨fun hl => ?_, fun hl => ?_, fun hl => ?_, fun hl => ?_, fun hl => ?_,
        fun hl => ?_⟩ <;>
        first | omega | simp at hl
  · intro B
    have h1 : (B + 1) * 86400 / 86400 = B + 1 := Nat.mul_div_cancel _ (by norm_num)
    have h2 : (B + 1) * 86400 % 86400 = 0 := Nat.mul_mod_left _ _
    refine ⟨(B + 1) * 86400, (B + 1, "d", 86400), ?_, rfl, by omega⟩
    simp [dhms_terms, ladderTerms, ladderFull, dhmsLadder, DAY, HOUR, MINUTE, SECOND,
      h1, h2, List.filter]
  · intro B
    have h1 : (B + 1) * 604800 / 604800 = B + 1 := Nat.mul_div_cancel _ (by norm_num)
    have h2 : (B + 1) * 604800 % 604800 = 0 := Nat.mul_mod_left _ _
    refine ⟨(B + 1) * 604800, (B + 1, "w", 604800), ?_, rfl, by omega⟩
    simp [wdhms_terms, ladderTerms, ladderFull, wdhmsLadder, DAY, HOUR, MINUTE, SECOND,
      WEEK, h1, h2, List.filter]
  · intro B
    have h1 : (B + 1) * 86400000000000 / 86400000000000 = B + 1 :=
      Nat.mul_div_cancel _ (by norm_num)
    have h2 : (B + 1) * 86400000000000 % 86400000000000 = 0 := Nat.mul_mod_left _ _
    refine ⟨(B + 1) * 86400000000000, (B + 1, "d", 86400000000000), ?_, rfl, by omega⟩
    simp [ns_terms, ladderTerms, ladderFull, nsLadder, DAY, HOUR, MINUTE, SECOND, NANOS,
      MS, US, NS, h1, h2, List.filter]

/-- Witness for C5 at input `7259`: the emitted hour coefficient `2` is at
most 23. -/
theorem format_bucket_bounds_witness : (2 : Nat) ≤ 23 :=
  (format_bucket_bounds.1 7259 (2, "h", 3600) (by decide)).1 rfl
